import Mathlib

/-
Verification of the dialogue control engine of the appointment-booking
repository (Jenny-bot/dialogue-systems-1-2025).

The repository contains two xstate dialogue machines:
  * `src/Code/src/dm.ts`  -- the grammar-based variant ("DM" machine),
  * `src/Code/src/dm4.ts` -- the NLU (intent/entity) variant.

This file gives a shallow embedding of both machines: the lexicon helpers
(`grammar`, `isInGrammar`, `getPerson`, `validateDay`, `isYes`, `isNo`) are
translated directly from the TypeScript source; each machine becomes a state
type plus a step function mapping (state, context, inbound event) to an
optional (state, context) pair.  A `none` result models a thrown JavaScript
`TypeError` (the source dereferences `context.lastResult![0].utterance` under
a non-null assertion, which throws when `lastResult` is `null`, an empty
array, or a non-array NLU object).  Eventless ("always") transitions and
entry-time `assign` actions of the target state are folded into the step, so
one step carries a machine from a stable configuration to the next stable
configuration.  Speech output (`spst.speak`) only affects the external
speech service and is not part of the engine state; the state the machine
rests in determines which utterance was requested.
-/

namespace DialogueSystems

/-- ASCII lower-casing of a single character, the behaviour of JavaScript's
`String.prototype.toLowerCase` on the ASCII strings this engine handles:
`A`..`Z` (code points 65..90) map to `a`..`z`, everything else is kept. -/
def lowerChar (c : Char) : Char :=
  if 65 ≤ c.toNat ∧ c.toNat ≤ 90 then Char.ofNat (c.toNat + 32) else c

/-- Model of `utterance.toLowerCase()` from the TypeScript source. -/
def toLowerCase (s : String) : String := ⟨s.data.map lowerChar⟩

theorem toNat_ofNat_valid (n : Nat) (h : n.isValidChar) : (Char.ofNat n).toNat = n := by
  rw [Char.ofNat, dif_pos h]
  rfl

theorem lowerChar_idem (c : Char) : lowerChar (lowerChar c) = lowerChar c := by
  unfold lowerChar
  by_cases h : 65 ≤ c.toNat ∧ c.toNat ≤ 90
  · rw [if_pos h]
    have hv : (c.toNat + 32).isValidChar := by
      unfold Nat.isValidChar
      left
      omega
    have ht : (Char.ofNat (c.toNat + 32)).toNat = c.toNat + 32 := toNat_ofNat_valid _ hv
    rw [if_neg]
    omega
  · rw [if_neg h, if_neg h]

theorem toLowerCase_idem (s : String) : toLowerCase (toLowerCase s) = toLowerCase s := by
  have hc : lowerChar ∘ lowerChar = lowerChar := funext lowerChar_idem
  unfold toLowerCase
  simp [List.map_map, hc]

/-- One entry of the static lexicon (`interface GrammarEntry` in dm.ts /
dm4.ts): an optional canonical person name, weekday name, time-of-day and
yes/no value. -/
structure GrammarEntry where
  person : Option String := none
  day : Option String := none
  time : Option String := none
  yesno : Option String := none
deriving DecidableEq

/-- The static lexicon `grammar` of dm.ts (lines 31-41) and dm4.ts (lines
43-53), keyed by the normalized (lower-cased) utterance. -/
def grammar : List (String × GrammarEntry) :=
  [ ("vlad", { person := some "Vladislav Maraev" }),
    ("aya", { person := some "Nayat Astaiza Soriano" }),
    ("victoria", { person := some "Victoria Daniilidou" }),
    ("monday", { day := some "Monday" }),
    ("tuesday", { day := some "Tuesday" }),
    ("yes", { yesno := some "Yes" }),
    ("no", { yesno := some "No" }),
    ("10", { time := some "10:00" }),
    ("11", { time := some "11:00" }) ]

/-- JavaScript `grammar[key]` read as a `GrammarEntry`: the table's own
entry for the key, if any.  For a property name inherited from
`Object.prototype` (see `objectProtoKeys`) the runtime `grammar[key]`
yields the inherited function or object instead of `undefined`; that value
carries none of the `GrammarEntry` fields, so for every field read the
engine performs (only `.person`, in `getPerson`) the inherited value is
observationally equal to the `none` returned here. -/
def grammarLookup (key : String) : Option GrammarEntry :=
  (grammar.find? (fun p => p.1 == key)).map Prod.snd

/-- The property names every plain JavaScript object literal inherits from
`Object.prototype`, which the `in` operator reports as present on the
`grammar` table even though they are not keys of the table. -/
def objectProtoKeys : List String :=
  ["constructor", "hasOwnProperty", "isPrototypeOf", "propertyIsEnumerable",
   "toLocaleString", "toString", "valueOf", "__defineGetter__", "__defineSetter__",
   "__lookupGetter__", "__lookupSetter__", "__proto__"]

/-- The fixed 7-day set `validDay` (dm.ts line 43, dm4.ts line 55). -/
def validDay : List String :=
  ["monday", "tuesday", "wednesday", "thursday", "friday", "saturday", "sunday"]

/-- The affirmation phrase set `yesPhrases` (dm.ts line 44, dm4.ts line 56). -/
def yesPhrases : List String := ["yes", "sure", "of course", "absolutely", "indeed", "aye"]

/-- The negation phrase set `noPhrases` (dm.ts line 45, dm4.ts line 57). -/
def noPhrases : List String := ["no", "nope", "nah", "negative", "nay", "not really"]

/-- `isInGrammar(utterance)`: `utterance.toLowerCase() in grammar`.  The
JavaScript `in` operator consults the prototype chain, so it holds both for
the table's own keys and for the property names inherited from
`Object.prototype`. -/
def isInGrammar (utterance : String) : Bool :=
  (grammarLookup (toLowerCase utterance)).isSome
    || objectProtoKeys.contains (toLowerCase utterance)

/-- `getPerson(utterance)`: `(grammar[utterance.toLowerCase()] || {}).person`;
`none` models JavaScript `undefined` (key absent, entry without a person
field, or an inherited prototype value, which has no `person` property). -/
def getPerson (utterance : String) : Option String :=
  (grammarLookup (toLowerCase utterance)).bind GrammarEntry.person

theorem protoKey_not_in_table (s : String) (h : objectProtoKeys.contains s = true) :
    grammarLookup s = none := by
  have hm : s ∈ objectProtoKeys := by
    have := List.elem_iff.mp h
    simpa using this
  fin_cases hm <;> decide

/-- `validateDay(utterance)`: membership of the lower-cased utterance in the
fixed 7-day set. -/
def validateDay (utterance : String) : Bool :=
  validDay.contains (toLowerCase utterance)

/-- `isYes(utterance)`: membership of the lower-cased utterance in
`yesPhrases`. -/
def isYes (utterance : String) : Bool :=
  yesPhrases.contains (toLowerCase utterance)

/-- `isNo(utterance)`: membership of the lower-cased utterance in
`noPhrases`. -/
def isNo (utterance : String) : Bool :=
  noPhrases.contains (toLowerCase utterance)

theorem isYes_toLowerCase (u : String) : isYes (toLowerCase u) = isYes u := by
  unfold isYes
  rw [toLowerCase_idem]

theorem isNo_toLowerCase (u : String) : isNo (toLowerCase u) = isNo u := by
  unfold isNo
  rw [toLowerCase_idem]

theorem yes_not_no (s : String) (h : yesPhrases.contains s = true) :
    noPhrases.contains s = false := by
  have hm : s ∈ yesPhrases := by
    have := List.elem_iff.mp h
    simpa using this
  fin_cases hm <;> decide

theorem isYes_isNo_false (u : String) (h : isYes u = true) : isNo u = false :=
  yes_not_no _ h

/-- JavaScript `a || d` on strings: the empty string is the only falsy
string value that occurs here. -/
def jsOrString (a d : String) : String := if a = "" then d else a

/-- JavaScript `a || d` where `a` may be `undefined` (`none`) or a string. -/
def jsOrOption (a : Option String) (d : String) : String :=
  match a with
  | some s => jsOrString s d
  | none => d

/-- JavaScript truthiness of a string-or-undefined value. -/
def truthyOpt (a : Option String) : Bool :=
  match a with
  | some s => !(s == "")
  | none => false

/-- One ASR hypothesis (`Hypothesis` from the speechstate library).  The
engine only ever reads the `utterance` field of the top hypothesis; the
confidence score is never consulted and is not modelled. -/
structure Hypothesis where
  utterance : String
deriving DecidableEq

/-- The conversation context of the grammar variant (dm.ts lines 93-100 and
`DMContext` in types.ts): `lastResult` is the last recognition result
(`null` after a no-input turn), and the three slot values are `null` until
filled.  The `spstRef` actor reference is an external collaborator and is
not part of the engine state. -/
structure DMContext where
  lastResult : Option (List Hypothesis)
  nameResult : Option String
  dayResult : Option String
  timeResult : Option String
deriving DecidableEq

/-- Initial context of dm.ts: every field starts out `null`. -/
def initContext : DMContext :=
  { lastResult := none, nameResult := none, dayResult := none, timeResult := none }

/-- The five slot sub-machines of the dm.ts flow. -/
inductive Slot
  | AskName | AskDay | AskFullDay | AskTime | AskConfirm
deriving DecidableEq

/-- Child states of a slot sub-machine.  Each dm.ts slot names its prompt
state after the slot (`PromptForName`, `PromptForDay`, `PromptForYesNo`,
`PromptForTime`); those per-slot prompt states are all represented by
`Prompt`.  `Check` is used only by the dm4.ts variant (`CheckForName`,
`CheckForDay`, `CheckForTime`).  Not every child exists in every slot;
combinations absent from the source are never produced by the step
functions. -/
inductive Child
  | Check | Prompt | Listen | NoInput | ValidateInput | ValidInput
  | InvalidInput | InvalidDay | InvalidYesNo | InvalidTime | WholeDay
deriving DecidableEq

/-- Top-level states of the dm.ts machine. -/
inductive DMState
  | Prepare | WaitToStart | Greeting
  | inSlot (s : Slot) (c : Child)
  | Done
deriving DecidableEq

/-- Inbound events of the dm.ts machine (from the speech service or the UI
button).  `recognised` carries the hypothesis list of the `RECOGNISED`
event; `asrNoInput` is `ASR_NOINPUT`. -/
inductive DMEvent
  | asrttsReady | click | speakComplete | listenComplete
  | recognised (hyps : List Hypothesis) | asrNoInput
deriving DecidableEq

/-- JavaScript `lastResult![0].utterance`: yields the top utterance, or
`none` when the dereference throws (`lastResult` is `null` or an empty
array). -/
def topUtterance : Option (List Hypothesis) → Option String
  | some (h :: _) => some h.utterance
  | _ => none

/-- Resolution of a dm.ts `ValidateInput` state: the slot's `always` guard
chain is applied in source order to the top utterance, and the entry-time
`assign` of the chosen target state is applied.  Guards read
`context.lastResult![0].utterance`, so a `null`/empty `lastResult` throws
(`none`).  Translated from dm.ts lines 188-201 (AskName), 280-298 (AskDay),
377-405 (AskFullDay), 484-497 (AskTime) and 581-608 (AskConfirm). -/
def dmValidate (s : Slot) (ctx : DMContext) : Option (DMState × DMContext) :=
  match topUtterance ctx.lastResult with
  | none => none
  | some u =>
    match s with
    | .AskName =>
      if isInGrammar u then
        some (.inSlot .AskName .ValidInput,
          { ctx with nameResult := some (jsOrOption (getPerson u) "Unknown") })
      else some (.inSlot .AskName .InvalidInput, ctx)
    | .AskDay =>
      if !(validateDay u) then some (.inSlot .AskDay .InvalidDay, ctx)
      else if isInGrammar u then
        some (.inSlot .AskDay .ValidInput, { ctx with dayResult := some (jsOrString u "Unknown") })
      else some (.inSlot .AskDay .InvalidInput, ctx)
    | .AskFullDay =>
      if isNo (toLowerCase u) then some (.inSlot .AskTime .Prompt, ctx)
      else if isYes (toLowerCase u) then
        some (.inSlot .AskFullDay .WholeDay, { ctx with timeResult := some "whole day" })
      else if !(isNo (toLowerCase u)) || !(isYes (toLowerCase u)) then
        some (.inSlot .AskFullDay .InvalidInput, ctx)
      else some (.inSlot .AskFullDay .ValidateInput, ctx)
    | .AskTime =>
      if isInGrammar u then
        some (.inSlot .AskTime .ValidInput, { ctx with timeResult := some (jsOrString u "Unknown") })
      else some (.inSlot .AskTime .InvalidInput, ctx)
    | .AskConfirm =>
      if isNo (toLowerCase u) then some (.inSlot .AskName .Prompt, ctx)
      else if isYes (toLowerCase u) then some (.Done, ctx)
      else if !(isNo (toLowerCase u)) || !(isYes (toLowerCase u)) then
        some (.inSlot .AskConfirm .InvalidInput, ctx)
      else some (.inSlot .AskConfirm .ValidateInput, ctx)

/-- One step of the dm.ts machine: process one inbound event from a stable
configuration, including the eventless `ValidateInput` resolution and the
entry `assign` actions of the target.  Unhandled events are discarded (the
configuration is unchanged), matching xstate.  `none` models a thrown
`TypeError`. -/
def dmStep : DMState → DMContext → DMEvent → Option (DMState × DMContext)
  | .Prepare, ctx, .asrttsReady => some (.WaitToStart, ctx)
  | .WaitToStart, ctx, .click => some (.Greeting, ctx)
  | .Greeting, ctx, .speakComplete => some (.inSlot .AskName .Prompt, ctx)
  | .inSlot s _, ctx, .listenComplete =>
    if ctx.lastResult.isSome then dmValidate s ctx
    else some (.inSlot s .NoInput, ctx)
  | .inSlot s .Prompt, ctx, .speakComplete => some (.inSlot s .Listen, ctx)
  | .inSlot s .NoInput, ctx, .speakComplete => some (.inSlot s .Prompt, ctx)
  | .inSlot s .InvalidInput, ctx, .speakComplete => some (.inSlot s .Prompt, ctx)
  | .inSlot s .InvalidDay, ctx, .speakComplete => some (.inSlot s .Prompt, ctx)
  | .inSlot s .InvalidYesNo, ctx, .speakComplete => some (.inSlot s .Prompt, ctx)
  | .inSlot s .InvalidTime, ctx, .speakComplete => some (.inSlot s .Prompt, ctx)
  | .inSlot .AskName .ValidInput, ctx, .speakComplete =>
    if ctx.nameResult = some "Unknown" then some (.inSlot .AskName .Prompt, ctx)
    else some (.inSlot .AskDay .Prompt, ctx)
  | .inSlot .AskDay .ValidInput, ctx, .speakComplete => some (.inSlot .AskFullDay .Prompt, ctx)
  | .inSlot .AskFullDay .WholeDay, ctx, .speakComplete => some (.inSlot .AskConfirm .Prompt, ctx)
  | .inSlot .AskTime .ValidInput, ctx, .speakComplete => some (.inSlot .AskConfirm .Prompt, ctx)
  | .inSlot .AskConfirm .WholeDay, ctx, .speakComplete => some (.Done, ctx)
  | .inSlot s .Listen, ctx, .recognised hyps =>
    some (.inSlot s .Listen, { ctx with lastResult := some hyps })
  | .inSlot s .Listen, ctx, .asrNoInput =>
    some (.inSlot s .Listen, { ctx with lastResult := none })
  | .Done, ctx, .click => some (.Greeting, ctx)
  | st, ctx, _ => some (st, ctx)

/-- Run the dm.ts machine over a list of inbound events; a thrown
`TypeError` aborts the run. -/
def runDM (st : DMState) (ctx : DMContext) : List DMEvent → Option (DMState × DMContext)
  | [] => some (st, ctx)
  | e :: es =>
    match dmStep st ctx e with
    | none => none
    | some (st2, ctx2) => runDM st2 ctx2 es

/-- One extracted NLU entity (category and text span), as consumed by the
dm4.ts `RECOGNISED` handler (categories `personName`, `apptTime`,
`apptDay`). -/
structure Entity where
  category : String
  text : String
deriving DecidableEq

/-- The NLU payload `event.nluValue` of a `RECOGNISED` event in NLU listen
mode: the top classified intent and an optional entity list. -/
structure NLUValue where
  topIntent : String
  entities : Option (List Entity)
deriving DecidableEq

/-- What dm4.ts stores into `context.lastResult`: either a plain ASR
hypothesis list (`lastResult: event.value`) or, in the AskWhat step, the
whole NLU payload object (`lastResult: event.nluValue`).  Both are truthy
JavaScript values; indexing an NLU object with `[0]` yields `undefined`. -/
inductive RecResult
  | asr (hyps : List Hypothesis)
  | nlu (v : NLUValue)
deriving DecidableEq

/-- The conversation context of the NLU variant (dm4.ts lines 122-131 and
`DMContext` in types.ts): the slot values are strings initialised to `""`,
plus the last classified intent and extracted entities. -/
structure DM4Context where
  lastResult : Option RecResult
  nameResult : String
  dayResult : String
  timeResult : String
  nluIntent : String
  nluEntities : Option (List Entity)
deriving DecidableEq

/-- Initial context of dm4.ts. -/
def dm4InitContext : DM4Context :=
  { lastResult := none, nameResult := "", dayResult := "", timeResult := "",
    nluIntent := "", nluEntities := none }

/-- The context produced by the entry `assign` of dm4.ts's `Done` (lines
854-862) and `DoneMeeting` (lines 873-881) states: every field is reset. -/
def dm4ResetContext : DM4Context :=
  { lastResult := none, nameResult := "", dayResult := "", timeResult := "",
    nluIntent := "", nluEntities := none }

/-- The six slot sub-machines of the dm4.ts flow. -/
inductive DM4Slot
  | AskWhat | AskName | AskDay | AskFullDay | AskTime | AskConfirm
deriving DecidableEq

/-- Top-level states of the dm4.ts machine. -/
inductive DM4State
  | Prepare | WaitToStart | Greeting
  | inSlot (s : DM4Slot) (c : Child)
  | WhoIs | Done | DoneMeeting
deriving DecidableEq

/-- Inbound events of the dm4.ts machine.  `recognised` carries a plain ASR
hypothesis list, `recognisedNLU` carries the `nluValue` payload delivered
for an NLU-mode listen. -/
inductive DM4Event
  | asrttsReady | click | speakComplete | listenComplete
  | recognised (hyps : List Hypothesis) | recognisedNLU (v : NLUValue) | asrNoInput
deriving DecidableEq

/-- JavaScript `lastResult![0].utterance` on a dm4 context: `none` models
the thrown `TypeError` when `lastResult` is `null`, an empty array, or the
stored NLU object (whose `[0]` is `undefined`). -/
def topUtterance4 : Option RecResult → Option String
  | some (.asr (h :: _)) => some h.utterance
  | _ => none

/-- One iteration of the entity loop in dm4.ts's AskWhat `RECOGNISED`
handler (lines 241-253): a `personName` entity fills the person slot, an
`apptTime` entity the time slot, an `apptDay` entity the day slot. -/
def applyEntity (ctx : DM4Context) (e : Entity) : DM4Context :=
  if e.category = "personName" then { ctx with nameResult := e.text }
  else if e.category = "apptTime" then { ctx with timeResult := e.text }
  else if e.category = "apptDay" then { ctx with dayResult := e.text }
  else ctx

/-- The full `RECOGNISED` assign of dm4.ts's AskWhat.Listen (lines 229-262):
fold the entity updates over `event.nluValue.entities || []`, then store the
NLU payload as `lastResult`, the top intent and the entity list. -/
def applyNLU (ctx : DM4Context) (v : NLUValue) : DM4Context :=
  let ctx1 := (v.entities.getD []).foldl applyEntity ctx
  { ctx1 with
    lastResult := some (.nlu v)
    nluIntent := v.topIntent
    nluEntities := v.entities }

/-- The `LISTEN_COMPLETE` guard shared by dm4.ts's AskName (line 305),
AskDay (line 418), AskFullDay (line 526) and AskTime (line 643):
`!!slotValue || !!context.lastResult![0].utterance`.  The disjunction
short-circuits, so a filled slot avoids the dereference; with the slot
empty and `lastResult` `null` the dereference throws (`none`). -/
def slotListenGuard (slotValue : String) (lastResult : Option RecResult) : Option Bool :=
  if slotValue ≠ "" then some true
  else
    match topUtterance4 lastResult with
    | none => none
    | some u => some (!(u == ""))

/-- The entry `assign` of dm4.ts's AskName `ValidateInput` (lines 368-375):
`nameResult` becomes
`(getPerson(nameResult) || getPerson(lastResult![0].utterance)) || "Unknown"`.
The disjunction short-circuits, so a resolvable pre-filled name avoids the
`lastResult![0]` dereference; with an unresolvable name and no usable
`lastResult` the dereference throws (`none`). -/
def nameAssign4 (ctx : DM4Context) : Option DM4Context :=
  if truthyOpt (getPerson ctx.nameResult) then
    some { ctx with nameResult := (getPerson ctx.nameResult).getD "" }
  else
    match topUtterance4 ctx.lastResult with
    | none => none
    | some u =>
      if truthyOpt (getPerson u) then some { ctx with nameResult := (getPerson u).getD "" }
      else some { ctx with nameResult := "Unknown" }

/-- Resolution of dm4.ts's AskName `ValidateInput` (lines 367-387): the
entry `assign` runs first, then the `always` chain branches on whether the
stored result is `"Unknown"`. -/
def validateName4 (ctx : DM4Context) : Option (DM4State × DM4Context) :=
  match nameAssign4 ctx with
  | none => none
  | some ctx2 =>
    if ctx2.nameResult ≠ "Unknown" then some (.inSlot .AskName .ValidInput, ctx2)
    else some (.inSlot .AskName .InvalidInput, ctx2)

/-- Entry to dm4.ts's AskName: the initial child `CheckForName` (lines
311-321) jumps straight to `ValidateInput` when the person slot is already
filled, otherwise to the prompt. -/
def enterAskName4 (ctx : DM4Context) : Option (DM4State × DM4Context) :=
  if ctx.nameResult ≠ "" then validateName4 ctx
  else some (.inSlot .AskName .Prompt, ctx)

/-- Entry of dm4.ts's AskTime.ValidInput (lines 690-702): the entry `assign`
computes `timeResult || lastResult![0].utterance || "Unknown"`. -/
def validTimeEntry4 (ctx : DM4Context) : Option (DM4State × DM4Context) :=
  if ctx.timeResult ≠ "" then some (.inSlot .AskTime .ValidInput, ctx)
  else
    match topUtterance4 ctx.lastResult with
    | none => none
    | some u => some (.inSlot .AskTime .ValidInput, { ctx with timeResult := jsOrString u "Unknown" })

/-- Resolution of dm4.ts's AskTime `ValidateInput` (lines 705-717): the
first guard is `isInGrammar(timeResult) || isInGrammar(lastResult![0].utterance)`
(short-circuiting), the second fires otherwise. -/
def validateTime4 (ctx : DM4Context) : Option (DM4State × DM4Context) :=
  if isInGrammar ctx.timeResult then validTimeEntry4 ctx
  else
    match topUtterance4 ctx.lastResult with
    | none => none
    | some u =>
      if isInGrammar u then validTimeEntry4 ctx
      else some (.inSlot .AskTime .InvalidInput, ctx)

/-- Entry to dm4.ts's AskTime: the initial child `CheckForTime` (lines
649-659) jumps to `ValidateInput` when the time slot is filled, otherwise to
the prompt. -/
def enterAskTime4 (ctx : DM4Context) : Option (DM4State × DM4Context) :=
  if ctx.timeResult ≠ "" then validateTime4 ctx
  else some (.inSlot .AskTime .Prompt, ctx)

/-- Entry to dm4.ts's AskFullDay: the initial child `CheckForTime` (lines
532-542) jumps to `#DM.AskTime` when the time slot is filled, otherwise to
the yes/no prompt. -/
def enterAskFullDay4 (ctx : DM4Context) : Option (DM4State × DM4Context) :=
  if ctx.timeResult ≠ "" then enterAskTime4 ctx
  else some (.inSlot .AskFullDay .Prompt, ctx)

/-- Entry to dm4.ts's AskDay: the initial child `CheckForDay` (lines
424-434) jumps to `#DM.AskFullDay` when the day slot is filled, otherwise to
the prompt. -/
def enterAskDay4 (ctx : DM4Context) : Option (DM4State × DM4Context) :=
  if ctx.dayResult ≠ "" then enterAskFullDay4 ctx
  else some (.inSlot .AskDay .Prompt, ctx)

/-- Resolution of dm4.ts's AskDay `ValidateInput` (lines 480-498), the same
guard chain as dm.ts. -/
def validateDay4 (ctx : DM4Context) : Option (DM4State × DM4Context) :=
  match topUtterance4 ctx.lastResult with
  | none => none
  | some u =>
    if !(validateDay u) then some (.inSlot .AskDay .InvalidDay, ctx)
    else if isInGrammar u then
      some (.inSlot .AskDay .ValidInput, { ctx with dayResult := jsOrString u "Unknown" })
    else some (.inSlot .AskDay .InvalidInput, ctx)

/-- Resolution of dm4.ts's AskFullDay `ValidateInput` (lines 587-614): `no`
goes to `#DM.AskTime`, `yes` to `WholeDay` (filling the time slot with
`"whole day"`), anything else to `InvalidInput`. -/
def validateFullDay4 (ctx : DM4Context) : Option (DM4State × DM4Context) :=
  match topUtterance4 ctx.lastResult with
  | none => none
  | some u =>
    if isNo (toLowerCase u) then enterAskTime4 ctx
    else if isYes (toLowerCase u) then
      some (.inSlot .AskFullDay .WholeDay, { ctx with timeResult := "whole day" })
    else if !(isNo (toLowerCase u)) || !(isYes (toLowerCase u)) then
      some (.inSlot .AskFullDay .InvalidInput, ctx)
    else some (.inSlot .AskFullDay .ValidateInput, ctx)

/-- Resolution of dm4.ts's AskConfirm `ValidateInput` (lines 802-829): `no`
goes to `#DM.AskName` (whose `CheckForName` re-validates the retained
person slot), `yes` to `#DM.DoneMeeting` (whose entry `assign` resets the
whole context), anything else to `InvalidInput`. -/
def validateConfirm4 (ctx : DM4Context) : Option (DM4State × DM4Context) :=
  match topUtterance4 ctx.lastResult with
  | none => none
  | some u =>
    if isNo (toLowerCase u) then enterAskName4 ctx
    else if isYes (toLowerCase u) then some (.DoneMeeting, dm4ResetContext)
    else if !(isNo (toLowerCase u)) || !(isYes (toLowerCase u)) then
      some (.inSlot .AskConfirm .InvalidInput, ctx)
    else some (.inSlot .AskConfirm .ValidateInput, ctx)

/-- Resolution of dm4.ts's AskWhat `ValidateInput` (lines 207-220): any
intent other than the literal `"None"` passes to `ValidInput`; `"None"`
goes to `InvalidInput`. -/
def validateWhat4 (ctx : DM4Context) : Option (DM4State × DM4Context) :=
  if ctx.nluIntent ≠ "None" then some (.inSlot .AskWhat .ValidInput, ctx)
  else some (.inSlot .AskWhat .InvalidInput, ctx)

/-- One step of the dm4.ts machine, in the same style as `dmStep`.  Entry
`assign` actions (including the context reset on entering `Done` /
`DoneMeeting`) and all `always` chains are folded in; `none` models a thrown
`TypeError`. -/
def dm4Step : DM4State → DM4Context → DM4Event → Option (DM4State × DM4Context)
  | .Prepare, ctx, .asrttsReady => some (.WaitToStart, ctx)
  | .WaitToStart, ctx, .click => some (.Greeting, ctx)
  | .Greeting, ctx, .speakComplete => some (.inSlot .AskWhat .Prompt, ctx)
  | .inSlot .AskWhat _, ctx, .listenComplete =>
    if ctx.lastResult.isSome then validateWhat4 ctx
    else some (.inSlot .AskWhat .NoInput, ctx)
  | .inSlot .AskName _, ctx, .listenComplete =>
    match slotListenGuard ctx.nameResult ctx.lastResult with
    | none => none
    | some true => validateName4 ctx
    | some false => some (.inSlot .AskName .NoInput, ctx)
  | .inSlot .AskDay _, ctx, .listenComplete =>
    match slotListenGuard ctx.dayResult ctx.lastResult with
    | none => none
    | some true => validateDay4 ctx
    | some false => some (.inSlot .AskDay .NoInput, ctx)
  | .inSlot .AskFullDay _, ctx, .listenComplete =>
    match slotListenGuard ctx.timeResult ctx.lastResult with
    | none => none
    | some true => validateFullDay4 ctx
    | some false => some (.inSlot .AskFullDay .NoInput, ctx)
  | .inSlot .AskTime _, ctx, .listenComplete =>
    match slotListenGuard ctx.timeResult ctx.lastResult with
    | none => none
    | some true => validateTime4 ctx
    | some false => some (.inSlot .AskTime .NoInput, ctx)
  | .inSlot .AskConfirm _, ctx, .listenComplete =>
    if ctx.lastResult.isSome then validateConfirm4 ctx
    else some (.inSlot .AskConfirm .NoInput, ctx)
  | .inSlot s .Prompt, ctx, .speakComplete => some (.inSlot s .Listen, ctx)
  | .inSlot s .NoInput, ctx, .speakComplete => some (.inSlot s .Prompt, ctx)
  | .inSlot s .InvalidInput, ctx, .speakComplete => some (.inSlot s .Prompt, ctx)
  | .inSlot s .InvalidDay, ctx, .speakComplete => some (.inSlot s .Prompt, ctx)
  | .inSlot s .InvalidYesNo, ctx, .speakComplete => some (.inSlot s .Prompt, ctx)
  | .inSlot s .InvalidTime, ctx, .speakComplete => some (.inSlot s .Prompt, ctx)
  | .inSlot .AskWhat .ValidInput, ctx, .speakComplete =>
    if ctx.nluIntent = "CreateMeeting" then enterAskName4 ctx
    else if ctx.nluIntent = "WhoIs" then some (.WhoIs, ctx)
    else some (.inSlot .AskWhat .ValidInput, ctx)
  | .inSlot .AskName .ValidInput, ctx, .speakComplete =>
    if ctx.nameResult = "Unknown" then enterAskName4 ctx
    else enterAskDay4 ctx
  | .inSlot .AskDay .ValidInput, ctx, .speakComplete => enterAskFullDay4 ctx
  | .inSlot .AskFullDay .WholeDay, ctx, .speakComplete => some (.inSlot .AskConfirm .Prompt, ctx)
  | .inSlot .AskTime .ValidInput, ctx, .speakComplete => some (.inSlot .AskConfirm .Prompt, ctx)
  | .inSlot .AskConfirm .WholeDay, _, .speakComplete => some (.DoneMeeting, dm4ResetContext)
  | .WhoIs, _, .speakComplete => some (.Done, dm4ResetContext)
  | .inSlot .AskWhat .Listen, ctx, .recognisedNLU v => some (.inSlot .AskWhat .Listen, applyNLU ctx v)
  | .inSlot .AskWhat .Listen, _, .recognised _ => none
  | .inSlot s .Listen, ctx, .recognised hyps =>
    some (.inSlot s .Listen, { ctx with lastResult := some (.asr hyps) })
  | .inSlot s .Listen, ctx, .asrNoInput =>
    some (.inSlot s .Listen, { ctx with lastResult := none })
  | .Done, ctx, .click => some (.Greeting, ctx)
  | .DoneMeeting, ctx, .click => some (.Greeting, ctx)
  | st, ctx, _ => some (st, ctx)

/-- Run the dm4.ts machine over a list of inbound events. -/
def runDM4 (st : DM4State) (ctx : DM4Context) : List DM4Event → Option (DM4State × DM4Context)
  | [] => some (st, ctx)
  | e :: es =>
    match dm4Step st ctx e with
    | none => none
    | some (st2, ctx2) => runDM4 st2 ctx2 es

/-- Whenever dm4.ts's AskName `ValidateInput` resolves without throwing, the
machine rests in `ValidInput` or `InvalidInput` of AskName — never in a
prompt or listen state. -/
theorem validateName4_reaches_validation (ctx : DM4Context) (p : DM4State × DM4Context)
    (hp : validateName4 ctx = some p) :
    p.1 = .inSlot .AskName .ValidInput ∨ p.1 = .inSlot .AskName .InvalidInput := by
  unfold validateName4 at hp
  split at hp
  · exact absurd hp (by simp)
  · split at hp
    · left
      rw [← congrArg Prod.fst (Option.some.inj hp)]
    · right
      rw [← congrArg Prod.fst (Option.some.inj hp)]

/-- The parent-level `LISTEN_COMPLETE` handler of every dm.ts slot: with a
truthy `lastResult` the machine resolves `ValidateInput`, otherwise it
enters `NoInput`. -/
theorem dmStep_listenComplete (s : Slot) (c : Child) (ctx : DMContext) :
    dmStep (.inSlot s c) ctx .listenComplete
      = if ctx.lastResult.isSome then dmValidate s ctx
        else some (.inSlot s .NoInput, ctx) := by
  cases s <;> cases c <;> rfl

/-- With a stored recognition result, `LISTEN_COMPLETE` resolves the slot's
`ValidateInput` state. -/
theorem dmStep_validate (s : Slot) (c : Child) (ctx : DMContext) (h : Hypothesis)
    (rest : List Hypothesis) (hlr : ctx.lastResult = some (h :: rest)) :
    dmStep (.inSlot s c) ctx .listenComplete = dmValidate s ctx := by
  rw [dmStep_listenComplete, hlr]
  rfl

/-- The dm.ts `NoInput` child of every slot returns to that slot's prompt
once its apology has been spoken. -/
theorem dmStep_noInput_speakComplete (s : Slot) (ctx : DMContext) :
    dmStep (.inSlot s .NoInput) ctx .speakComplete = some (.inSlot s .Prompt, ctx) := by
  cases s <;> rfl

theorem dmValidate_askDay (ctx : DMContext) (h : Hypothesis) (rest : List Hypothesis)
    (hlr : ctx.lastResult = some (h :: rest)) :
    dmValidate .AskDay ctx
      = if !(validateDay h.utterance) then some (.inSlot .AskDay .InvalidDay, ctx)
        else if isInGrammar h.utterance then
          some (.inSlot .AskDay .ValidInput,
            { ctx with dayResult := some (jsOrString h.utterance "Unknown") })
        else some (.inSlot .AskDay .InvalidInput, ctx) := by
  unfold dmValidate
  rw [hlr]
  rfl

theorem dmValidate_askFullDay (ctx : DMContext) (h : Hypothesis) (rest : List Hypothesis)
    (hlr : ctx.lastResult = some (h :: rest)) :
    dmValidate .AskFullDay ctx
      = if isNo (toLowerCase h.utterance) then some (.inSlot .AskTime .Prompt, ctx)
        else if isYes (toLowerCase h.utterance) then
          some (.inSlot .AskFullDay .WholeDay, { ctx with timeResult := some "whole day" })
        else if !(isNo (toLowerCase h.utterance)) || !(isYes (toLowerCase h.utterance)) then
          some (.inSlot .AskFullDay .InvalidInput, ctx)
        else some (.inSlot .AskFullDay .ValidateInput, ctx) := by
  unfold dmValidate
  rw [hlr]
  rfl

theorem dmValidate_askConfirm (ctx : DMContext) (h : Hypothesis) (rest : List Hypothesis)
    (hlr : ctx.lastResult = some (h :: rest)) :
    dmValidate .AskConfirm ctx
      = if isNo (toLowerCase h.utterance) then some (.inSlot .AskName .Prompt, ctx)
        else if isYes (toLowerCase h.utterance) then some (.Done, ctx)
        else if !(isNo (toLowerCase h.utterance)) || !(isYes (toLowerCase h.utterance)) then
          some (.inSlot .AskConfirm .InvalidInput, ctx)
        else some (.inSlot .AskConfirm .ValidateInput, ctx) := by
  unfold dmValidate
  rw [hlr]
  rfl

/-- Counterexample to claim C6: the utterance "constructor" (fixed by
lower-casing) is absent from the static grammar table, yet the program's
membership test returns true — the JavaScript `in` operator consults the
prototype chain, and `Object.prototype.constructor` is inherited by the
object literal `grammar`.  The claim's absent-implies-false conjunct is
therefore false on the program (person lookup still yields not-found
there). -/
theorem c6_ghost_key_cex :
    toLowerCase "constructor" = "constructor"
    ∧ grammarLookup "constructor" = none
    ∧ isInGrammar "constructor" = true
    ∧ getPerson "constructor" = none := by
  decide

/-- Claim C6 as amended: the lexicon resolver is a case-insensitive lookup
whose membership test also reports the `Object.prototype` property names
inherited through the prototype chain.  For every utterance whose
lower-cased form is a key of `grammar`, `isInGrammar` returns `true` and
`getPerson` returns the `person` field stored for that key; for every
utterance whose lower-cased form is absent from the table and is not an
inherited prototype name, `isInGrammar` returns `false` and `getPerson`
returns the not-found result (`none`); for an inherited prototype name,
`isInGrammar` returns `true` although the key is absent from the table,
while `getPerson` still returns not-found; and both results depend only on
the lower-cased utterance string. -/
theorem c6_lexicon_resolver (u : String) :
    (∀ e, grammarLookup (toLowerCase u) = some e →
       isInGrammar u = true ∧ getPerson u = e.person)
    ∧ (grammarLookup (toLowerCase u) = none →
         objectProtoKeys.contains (toLowerCase u) = false →
       isInGrammar u = false ∧ getPerson u = none)
    ∧ (objectProtoKeys.contains (toLowerCase u) = true →
       isInGrammar u = true ∧ getPerson u = none)
    ∧ (∀ v, toLowerCase u = toLowerCase v →
       isInGrammar u = isInGrammar v ∧ getPerson u = getPerson v) := by
  refine ⟨?_, ?_, ?_, ?_⟩
  · intro e he
    unfold isInGrammar getPerson
    rw [he]
    exact ⟨rfl, rfl⟩
  · intro he hp
    unfold isInGrammar getPerson
    rw [he, hp]
    exact ⟨rfl, rfl⟩
  · intro hp
    have hg := protoKey_not_in_table _ hp
    unfold isInGrammar getPerson
    rw [hg, hp]
    exact ⟨rfl, rfl⟩
  · intro v hv
    unfold isInGrammar getPerson
    rw [hv]
    exact ⟨rfl, rfl⟩

/-- Witness for the amended C6: "VLAD" is a present key resolving to its
canonical person, "xyz" is absent and not a prototype name (membership
false), and "Constructor" lower-cases to the inherited prototype name
(membership true, person lookup not-found). -/
theorem c6_lexicon_resolver_witness :
    grammarLookup (toLowerCase "VLAD") = some { person := some "Vladislav Maraev" }
    ∧ isInGrammar "VLAD" = true ∧ getPerson "VLAD" = some "Vladislav Maraev"
    ∧ isInGrammar "xyz" = false ∧ getPerson "xyz" = none
    ∧ isInGrammar "Constructor" = true ∧ getPerson "Constructor" = none := by
  have h1 := (c6_lexicon_resolver "VLAD").1 { person := some "Vladislav Maraev" } (by decide)
  have h2 := (c6_lexicon_resolver "xyz").2.1 (by decide) (by decide)
  have h3 := (c6_lexicon_resolver "Constructor").2.2.1 (by decide)
  exact ⟨by decide, h1.1, h1.2, h2.1, h2.2, h3.1, h3.2⟩

/-- Claim C4: at dm.ts's AskDay (the identical guard chain appears at
dm4.ts lines 480-498), a recognized utterance that is not a member of the
fixed 7-day set reaches `InvalidDay`; a member of the 7-day set that is not
in the bookable grammar reaches `InvalidInput`; a member of both reaches
`ValidInput` (committing the day slot).  The three conditions are mutually
exclusive and exhaustive, so exactly one outcome occurs, in the source's
first-match order. -/
theorem c4_askday_three_way (ctx : DMContext) (h : Hypothesis) (rest : List Hypothesis)
    (hlr : ctx.lastResult = some (h :: rest)) :
    (validateDay h.utterance = false →
       dmStep (.inSlot .AskDay .Listen) ctx .listenComplete
         = some (.inSlot .AskDay .InvalidDay, ctx))
    ∧ (validateDay h.utterance = true → isInGrammar h.utterance = false →
       dmStep (.inSlot .AskDay .Listen) ctx .listenComplete
         = some (.inSlot .AskDay .InvalidInput, ctx))
    ∧ (validateDay h.utterance = true → isInGrammar h.utterance = true →
       dmStep (.inSlot .AskDay .Listen) ctx .listenComplete
         = some (.inSlot .AskDay .ValidInput,
             { ctx with dayResult := some (jsOrString h.utterance "Unknown") })) := by
  refine ⟨?_, ?_, ?_⟩
  · intro hd
    rw [dmStep_validate .AskDay .Listen ctx h rest hlr, dmValidate_askDay ctx h rest hlr, hd]
    rfl
  · intro hd hg
    rw [dmStep_validate .AskDay .Listen ctx h rest hlr, dmValidate_askDay ctx h rest hlr, hd, hg]
    rfl
  · intro hd hg
    rw [dmStep_validate .AskDay .Listen ctx h rest hlr, dmValidate_askDay ctx h rest hlr, hd, hg]
    rfl

/-- Witness for C4 at the weekday-shaped but unbookable utterance
"wednesday": validation reaches the `InvalidInput` apology. -/
theorem c4_askday_three_way_witness :
    ({ initContext with lastResult := some [⟨"wednesday"⟩] } : DMContext).lastResult
        = some [⟨"wednesday"⟩]
    ∧ validateDay "wednesday" = true ∧ isInGrammar "wednesday" = false
    ∧ dmStep (.inSlot .AskDay .Listen) { initContext with lastResult := some [⟨"wednesday"⟩] }
        .listenComplete
      = some (.inSlot .AskDay .InvalidInput,
          { initContext with lastResult := some [⟨"wednesday"⟩] }) :=
  ⟨rfl, by decide, by decide,
    (c4_askday_three_way _ ⟨"wednesday"⟩ [] rfl).2.1 (by decide) (by decide)⟩

/-- Claim C5: at the two yes/no steps of dm.ts (AskFullDay and AskConfirm;
dm4.ts lines 587-615 and 802-829 carry the identical chain), an utterance in
the yes-phrase set takes the affirmative branch (`WholeDay` filling the time
slot, resp. `Done`), an utterance in the no-phrase set takes the negative
branch (`#DM.AskTime`, resp. `#DM.AskName`), and an utterance in neither set
reaches `InvalidInput` — it is never classified as an affirmation or a
negation.  The affirmative case uses the disjointness of the two phrase
sets, since the source tests `isNo` first. -/
theorem c5_yesno_classification (ctx : DMContext) (h : Hypothesis) (rest : List Hypothesis)
    (hlr : ctx.lastResult = some (h :: rest)) :
    (isYes h.utterance = true →
       dmStep (.inSlot .AskFullDay .Listen) ctx .listenComplete
         = some (.inSlot .AskFullDay .WholeDay, { ctx with timeResult := some "whole day" })
       ∧ dmStep (.inSlot .AskConfirm .Listen) ctx .listenComplete
         = some (.Done, ctx))
    ∧ (isNo h.utterance = true →
       dmStep (.inSlot .AskFullDay .Listen) ctx .listenComplete
         = some (.inSlot .AskTime .Prompt, ctx)
       ∧ dmStep (.inSlot .AskConfirm .Listen) ctx .listenComplete
         = some (.inSlot .AskName .Prompt, ctx))
    ∧ (isYes h.utterance = false → isNo h.utterance = false →
       dmStep (.inSlot .AskFullDay .Listen) ctx .listenComplete
         = some (.inSlot .AskFullDay .InvalidInput, ctx)
       ∧ dmStep (.inSlot .AskConfirm .Listen) ctx .listenComplete
         = some (.inSlot .AskConfirm .InvalidInput, ctx)) := by
  refine ⟨?_, ?_, ?_⟩
  · intro hy
    have hy2 : isYes (toLowerCase h.utterance) = true := by
      rw [isYes_toLowerCase]
      exact hy
    have hn2 : isNo (toLowerCase h.utterance) = false := by
      rw [isNo_toLowerCase]
      exact isYes_isNo_false _ hy
    constructor
    · rw [dmStep_validate .AskFullDay .Listen ctx h rest hlr,
        dmValidate_askFullDay ctx h rest hlr, hy2, hn2]
      rfl
    · rw [dmStep_validate .AskConfirm .Listen ctx h rest hlr,
        dmValidate_askConfirm ctx h rest hlr, hy2, hn2]
      rfl
  · intro hn
    have hn2 : isNo (toLowerCase h.utterance) = true := by
      rw [isNo_toLowerCase]
      exact hn
    constructor
    · rw [dmStep_validate .AskFullDay .Listen ctx h rest hlr,
        dmValidate_askFullDay ctx h rest hlr, hn2]
      rfl
    · rw [dmStep_validate .AskConfirm .Listen ctx h rest hlr,
        dmValidate_askConfirm ctx h rest hlr, hn2]
      rfl
  · intro hy hn
    have hy2 : isYes (toLowerCase h.utterance) = false := by
      rw [isYes_toLowerCase]
      exact hy
    have hn2 : isNo (toLowerCase h.utterance) = false := by
      rw [isNo_toLowerCase]
      exact hn
    constructor
    · rw [dmStep_validate .AskFullDay .Listen ctx h rest hlr,
        dmValidate_askFullDay ctx h rest hlr, hy2, hn2]
      rfl
    · rw [dmStep_validate .AskConfirm .Listen ctx h rest hlr,
        dmValidate_askConfirm ctx h rest hlr, hy2, hn2]
      rfl

/-- Witness for C5 at the yes-phrase "sure" (a synonym, not the literal
"yes"): the full-day step takes the affirmative branch and fills the time
slot with "whole day". -/
theorem c5_yesno_classification_witness :
    isYes "sure" = true
    ∧ dmStep (.inSlot .AskFullDay .Listen) { initContext with lastResult := some [⟨"sure"⟩] }
        .listenComplete
      = some (.inSlot .AskFullDay .WholeDay,
          { initContext with
            lastResult := some [⟨"sure"⟩]
            timeResult := some "whole day" }) :=
  ⟨by decide, ((c5_yesno_classification _ ⟨"sure"⟩ [] rfl).1 (by decide)).1⟩

/-- Claim C9: for every dm.ts slot, a `LISTEN_COMPLETE` with `lastResult`
null (a no-input turn) moves to that slot's own `NoInput` state and, after
the apology is spoken, back to that same slot's prompt; the context — in
particular every slot value — is unchanged at both steps, so no-input never
advances to another slot and never resets a filled slot. -/
theorem c9_noinput_frame (s : Slot) (c : Child) (ctx : DMContext)
    (hlr : ctx.lastResult = none) :
    dmStep (.inSlot s c) ctx .listenComplete = some (.inSlot s .NoInput, ctx)
    ∧ dmStep (.inSlot s .NoInput) ctx .speakComplete = some (.inSlot s .Prompt, ctx) := by
  constructor
  · rw [dmStep_listenComplete s c ctx, hlr]
    rfl
  · exact dmStep_noInput_speakComplete s ctx

/-- Witness for C9 at the AskName slot with a partially filled context: the
no-input turn loops on AskName and leaves the filled day slot untouched. -/
theorem c9_noinput_frame_witness :
    ({ initContext with dayResult := some "monday" } : DMContext).lastResult = none
    ∧ dmStep (.inSlot .AskName .Listen) { initContext with dayResult := some "monday" }
        .listenComplete
      = some (.inSlot .AskName .NoInput, { initContext with dayResult := some "monday" }) :=
  ⟨rfl, (c9_noinput_frame .AskName .Listen { initContext with dayResult := some "monday" } rfl).1⟩

theorem validateConfirm4_asr (ctx : DM4Context) (h : Hypothesis) (rest : List Hypothesis)
    (hlr : ctx.lastResult = some (.asr (h :: rest))) :
    validateConfirm4 ctx
      = if isNo (toLowerCase h.utterance) then enterAskName4 ctx
        else if isYes (toLowerCase h.utterance) then some (.DoneMeeting, dm4ResetContext)
        else if !(isNo (toLowerCase h.utterance)) || !(isYes (toLowerCase h.utterance)) then
          some (.inSlot .AskConfirm .InvalidInput, ctx)
        else some (.inSlot .AskConfirm .ValidateInput, ctx) := by
  unfold validateConfirm4
  rw [hlr]
  rfl

/-- A dm.ts AskConfirm context with all three slots filled (the state of
affairs just before the confirmation answer) and a recognised "no". -/
def c1Context : DMContext :=
  { lastResult := some [⟨"no"⟩], nameResult := some "Vladislav Maraev",
    dayResult := some "monday", timeResult := some "whole day" }

/-- A dm4.ts AskConfirm context with all three slots filled and a recognised
"no". -/
def c1Context4 : DM4Context :=
  { lastResult := some (.asr [⟨"no"⟩]), nameResult := "Vladislav Maraev",
    dayResult := "monday", timeResult := "whole day", nluIntent := "CreateMeeting",
    nluEntities := none }

/-- Counterexample to claim C1: at AskConfirm with all slots filled, a
recognised "no" transitions to AskName, but the resulting context is the
unchanged input context — every slot still holds its filled value, none is
cleared back to unset (`none`), so the post-reject state is not equivalent
to a fresh session (whose slots are all unset). -/
theorem c1_reject_keeps_slots_cex :
    dmStep (.inSlot .AskConfirm .Listen) c1Context .listenComplete
      = some (.inSlot .AskName .Prompt, c1Context)
    ∧ c1Context.nameResult = some "Vladislav Maraev"
    ∧ c1Context.dayResult = some "monday"
    ∧ c1Context.timeResult = some "whole day" := by
  decide

/-- Claim C1 as amended: a negation at AskConfirm transitions to the
AskName step, but the person, day and time slots retain their previously
filled values — the transition carries the context through unchanged (no
`assign` clears anything).  In the grammar variant the machine re-enters
AskName at its prompt; in the NLU variant it re-enters AskName through
`CheckForName`, which immediately re-validates the retained person slot. -/
theorem c1_reject_restarts_without_clearing :
    (∀ (ctx : DMContext) (h : Hypothesis) (rest : List Hypothesis),
       ctx.lastResult = some (h :: rest) → isNo h.utterance = true →
       dmStep (.inSlot .AskConfirm .Listen) ctx .listenComplete
         = some (.inSlot .AskName .Prompt, ctx))
    ∧ (∀ (ctx : DM4Context) (h : Hypothesis) (rest : List Hypothesis),
       ctx.lastResult = some (.asr (h :: rest)) → isNo h.utterance = true →
       dm4Step (.inSlot .AskConfirm .Listen) ctx .listenComplete = enterAskName4 ctx) := by
  constructor
  · intro ctx h rest hlr hno
    have hn2 : isNo (toLowerCase h.utterance) = true := by
      rw [isNo_toLowerCase]
      exact hno
    rw [dmStep_validate .AskConfirm .Listen ctx h rest hlr,
      dmValidate_askConfirm ctx h rest hlr, hn2]
    rfl
  · intro ctx h rest hlr hno
    have hn2 : isNo (toLowerCase h.utterance) = true := by
      rw [isNo_toLowerCase]
      exact hno
    have hstep : dm4Step (.inSlot .AskConfirm .Listen) ctx .listenComplete
        = if ctx.lastResult.isSome then validateConfirm4 ctx
          else some (.inSlot .AskConfirm .NoInput, ctx) := rfl
    rw [hstep, hlr, Option.isSome_some, if_pos rfl, validateConfirm4_asr ctx h rest hlr, hn2]
    rfl

/-- Witness for the amended C1 in both variants, at the filled contexts
with the recognised "no". -/
theorem c1_reject_restarts_without_clearing_witness :
    c1Context.lastResult = some [⟨"no"⟩] ∧ isNo "no" = true
    ∧ dmStep (.inSlot .AskConfirm .Listen) c1Context .listenComplete
      = some (.inSlot .AskName .Prompt, c1Context)
    ∧ dm4Step (.inSlot .AskConfirm .Listen) c1Context4 .listenComplete
      = enterAskName4 c1Context4 :=
  ⟨rfl, by decide,
    c1_reject_restarts_without_clearing.1 c1Context ⟨"no"⟩ [] rfl (by decide),
    c1_reject_restarts_without_clearing.2 c1Context4 ⟨"no"⟩ [] rfl (by decide)⟩

/-- A dm.ts AskConfirm context with all three slots filled and a recognised
"yes". -/
def c2Context : DMContext :=
  { lastResult := some [⟨"yes"⟩], nameResult := some "Vladislav Maraev",
    dayResult := some "monday", timeResult := some "whole day" }

/-- A dm4.ts AskConfirm context with all three slots filled and a recognised
"yes". -/
def c2Context4 : DM4Context :=
  { lastResult := some (.asr [⟨"yes"⟩]), nameResult := "Vladislav Maraev",
    dayResult := "monday", timeResult := "whole day", nluIntent := "CreateMeeting",
    nluEntities := none }

/-- Counterexample to claim C2 in the grammar variant: an affirmative
answer at AskConfirm enters the terminal `Done` state with the context
completely unchanged (dm.ts's `Done` entry only speaks), and the next
session-start `CLICK` re-enters `Greeting` still carrying the old slots and
the old recognition — nothing is reset before the next Greeting. -/
theorem c2_done_no_reset_cex :
    dmStep (.inSlot .AskConfirm .Listen) c2Context .listenComplete = some (.Done, c2Context)
    ∧ dmStep .Done c2Context .click = some (.Greeting, c2Context)
    ∧ c2Context.nameResult ≠ none ∧ c2Context.dayResult ≠ none
    ∧ c2Context.timeResult ≠ none ∧ c2Context.lastResult ≠ none := by
  decide

/-- Claim C2 as amended: only the NLU variant resets the context on entry to
its terminal booking-complete state.  In dm4.ts an affirmative answer at
AskConfirm enters `DoneMeeting` whose entry `assign` resets every slot, the
intent, the entities and `lastResult`, and the next `CLICK` re-enters
`Greeting` with the reset context.  (The grammar variant's `Done` performs
no reset — see the counterexample.) -/
theorem c2_donemeeting_resets_context (ctx : DM4Context) (h : Hypothesis)
    (rest : List Hypothesis) (hlr : ctx.lastResult = some (.asr (h :: rest)))
    (hyes : isYes h.utterance = true) :
    dm4Step (.inSlot .AskConfirm .Listen) ctx .listenComplete
      = some (.DoneMeeting, dm4ResetContext)
    ∧ dm4Step .DoneMeeting dm4ResetContext .click = some (.Greeting, dm4ResetContext) := by
  have hy2 : isYes (toLowerCase h.utterance) = true := by
    rw [isYes_toLowerCase]
    exact hyes
  have hn2 : isNo (toLowerCase h.utterance) = false := by
    rw [isNo_toLowerCase]
    exact isYes_isNo_false _ hyes
  constructor
  · have hstep : dm4Step (.inSlot .AskConfirm .Listen) ctx .listenComplete
        = if ctx.lastResult.isSome then validateConfirm4 ctx
          else some (.inSlot .AskConfirm .NoInput, ctx) := rfl
    rw [hstep, hlr, Option.isSome_some, if_pos rfl, validateConfirm4_asr ctx h rest hlr, hn2, hy2]
    rfl
  · rfl

/-- Witness for the amended C2 at the filled dm4 context with the
recognised "yes". -/
theorem c2_donemeeting_resets_context_witness :
    c2Context4.lastResult = some (.asr [⟨"yes"⟩]) ∧ isYes "yes" = true
    ∧ dm4Step (.inSlot .AskConfirm .Listen) c2Context4 .listenComplete
      = some (.DoneMeeting, dm4ResetContext) :=
  ⟨rfl, by decide, (c2_donemeeting_resets_context c2Context4 ⟨"yes"⟩ [] rfl (by decide)).1⟩

/-- The inbound event sequence of the dm.ts end-to-end happy path: service
ready, session start, then the turns "vlad" (person), "monday" (day), "yes"
(whole day) and "yes" (confirm). -/
def happyPathEvents : List DMEvent :=
  [.asrttsReady, .click, .speakComplete, .speakComplete, .recognised [⟨"vlad"⟩], .listenComplete,
   .speakComplete, .speakComplete, .recognised [⟨"monday"⟩], .listenComplete,
   .speakComplete, .speakComplete, .recognised [⟨"yes"⟩], .listenComplete,
   .speakComplete, .speakComplete, .recognised [⟨"yes"⟩], .listenComplete]

/-- The context in which the dm.ts happy path terminates: all slots still
filled, `lastResult` still holding the last "yes". -/
def happyPathFinalContext : DMContext :=
  { lastResult := some [⟨"yes"⟩], nameResult := some "Vladislav Maraev",
    dayResult := some "monday", timeResult := some "whole day" }

/-- Counterexample to claim C3's final conjunct: the happy path does end at
`Done` (the booking is finalized), but the context is not reset — every
slot and the last recognition still hold their values in the terminal
state, because dm.ts's `Done` entry performs no `assign`. -/
theorem c3_happy_path_no_reset_cex :
    runDM .Prepare initContext happyPathEvents = some (.Done, happyPathFinalContext)
    ∧ happyPathFinalContext.nameResult ≠ none
    ∧ happyPathFinalContext.dayResult ≠ none
    ∧ happyPathFinalContext.timeResult ≠ none
    ∧ happyPathFinalContext.lastResult ≠ none := by
  decide

/-- Claim C3 as amended: the dm.ts end-to-end happy path behaves as claimed
at every step — "vlad" resolves the person slot to "Vladislav Maraev" and
advances to AskDay, "xyz" reaches the unresolved-name apology
(`InvalidInput`) and re-prompts the same slot, "monday" advances to the
full-day question, "yes" there fills the time slot with "whole day" and
advances to AskConfirm, and "yes" at AskConfirm finalizes the booking
(terminal `Done`) — except that the context is NOT reset at `Done`: the
machine terminates still carrying all filled slots. -/
theorem c3_happy_path_amended :
    runDM .Prepare initContext (happyPathEvents.take 6)
      = some (.inSlot .AskName .ValidInput,
          { lastResult := some [⟨"vlad"⟩], nameResult := some "Vladislav Maraev",
            dayResult := none, timeResult := none })
    ∧ runDM .Prepare initContext (happyPathEvents.take 7)
      = some (.inSlot .AskDay .Prompt,
          { lastResult := some [⟨"vlad"⟩], nameResult := some "Vladislav Maraev",
            dayResult := none, timeResult := none })
    ∧ runDM (.inSlot .AskName .Listen) initContext [.recognised [⟨"xyz"⟩], .listenComplete]
      = some (.inSlot .AskName .InvalidInput, { initContext with lastResult := some [⟨"xyz"⟩] })
    ∧ dmStep (.inSlot .AskName .InvalidInput) { initContext with lastResult := some [⟨"xyz"⟩] }
        .speakComplete
      = some (.inSlot .AskName .Prompt, { initContext with lastResult := some [⟨"xyz"⟩] })
    ∧ runDM .Prepare initContext (happyPathEvents.take 11)
      = some (.inSlot .AskFullDay .Prompt,
          { lastResult := some [⟨"monday"⟩], nameResult := some "Vladislav Maraev",
            dayResult := some "monday", timeResult := none })
    ∧ runDM .Prepare initContext (happyPathEvents.take 15)
      = some (.inSlot .AskConfirm .Prompt,
          { lastResult := some [⟨"yes"⟩], nameResult := some "Vladislav Maraev",
            dayResult := some "monday", timeResult := some "whole day" })
    ∧ runDM .Prepare initContext happyPathEvents = some (.Done, happyPathFinalContext) := by
  refine ⟨?_, ?_, ?_, ?_, ?_, ?_, ?_⟩ <;> decide

theorem runDM4_cons (st : DM4State) (ctx : DM4Context) (e : DM4Event) (es : List DM4Event)
    (st2 : DM4State) (ctx2 : DM4Context) (hstep : dm4Step st ctx e = some (st2, ctx2)) :
    runDM4 st ctx (e :: es) = runDM4 st2 ctx2 es := by
  rw [runDM4, hstep]

theorem runDM4_singleton (st : DM4State) (ctx : DM4Context) (e : DM4Event) :
    runDM4 st ctx [e] = dm4Step st ctx e := by
  unfold runDM4
  cases hstep : dm4Step st ctx e with
  | none => rfl
  | some p =>
    obtain ⟨st2, ctx2⟩ := p
    rfl

/-- The AskWhat context an unroutable intent produces: the NLU payload with
top intent "Foo" has been stored by the `RECOGNISED` handler. -/
def c7Context : DM4Context :=
  { lastResult := some (.nlu { topIntent := "Foo", entities := none }), nameResult := "",
    dayResult := "", timeResult := "", nluIntent := "Foo", nluEntities := none }

/-- Counterexample to claim C7: a classified intent "Foo" — outside the
closed set {CreateMeeting, WhoIs} and different from the literal "None" —
does not take the invalid-input path.  Validation sends it to `ValidInput`
(which is not `InvalidInput`), and the subsequent `SPEAK_COMPLETE` fires no
transition (neither routing guard matches), so the machine stays in
`ValidInput` with an unchanged context instead of re-prompting: it is
stuck, not re-prompted. -/
theorem c7_unroutable_intent_cex :
    dm4Step (.inSlot .AskWhat .Listen) c7Context .listenComplete
      = some (.inSlot .AskWhat .ValidInput, c7Context)
    ∧ (DM4State.inSlot .AskWhat .ValidInput) ≠ (DM4State.inSlot .AskWhat .InvalidInput)
    ∧ dm4Step (.inSlot .AskWhat .ValidInput) c7Context .speakComplete
      = some (.inSlot .AskWhat .ValidInput, c7Context) := by
  decide

/-- Claim C7 as amended: in dm4.ts's routing step, only the literal intent
value "None" is treated as unroutable — it reaches `InvalidInput` and
returns to the "what can I help with" prompt.  Every other intent value
passes validation into `ValidInput`; from there only "CreateMeeting" and
"WhoIs" advance, and any other value leaves the machine stuck in
`ValidInput` (the `SPEAK_COMPLETE` event is discarded). -/
theorem c7_intent_routing_amended (ctx : DM4Context) (hlr : ctx.lastResult.isSome = true) :
    (ctx.nluIntent = "None" →
       dm4Step (.inSlot .AskWhat .Listen) ctx .listenComplete
         = some (.inSlot .AskWhat .InvalidInput, ctx)
       ∧ dm4Step (.inSlot .AskWhat .InvalidInput) ctx .speakComplete
         = some (.inSlot .AskWhat .Prompt, ctx))
    ∧ (ctx.nluIntent ≠ "None" →
       dm4Step (.inSlot .AskWhat .Listen) ctx .listenComplete
         = some (.inSlot .AskWhat .ValidInput, ctx))
    ∧ (ctx.nluIntent ≠ "None" → ctx.nluIntent ≠ "CreateMeeting" → ctx.nluIntent ≠ "WhoIs" →
       dm4Step (.inSlot .AskWhat .ValidInput) ctx .speakComplete
         = some (.inSlot .AskWhat .ValidInput, ctx)) := by
  have hstep : dm4Step (.inSlot .AskWhat .Listen) ctx .listenComplete
      = if ctx.lastResult.isSome then validateWhat4 ctx
        else some (.inSlot .AskWhat .NoInput, ctx) := rfl
  refine ⟨?_, ?_, ?_⟩
  · intro hn
    constructor
    · rw [hstep, hlr, if_pos rfl]
      unfold validateWhat4
      rw [hn]
      rfl
    · rfl
  · intro hn
    rw [hstep, hlr, if_pos rfl]
    unfold validateWhat4
    rw [if_pos hn]
  · intro h1 h2 h3
    have hstep2 : dm4Step (.inSlot .AskWhat .ValidInput) ctx .speakComplete
        = if ctx.nluIntent = "CreateMeeting" then enterAskName4 ctx
          else if ctx.nluIntent = "WhoIs" then some (.WhoIs, ctx)
          else some (.inSlot .AskWhat .ValidInput, ctx) := rfl
    rw [hstep2, if_neg h2, if_neg h3]

/-- Witness for the amended C7 at the concrete unroutable intent "Foo". -/
theorem c7_intent_routing_amended_witness :
    c7Context.lastResult.isSome = true
    ∧ dm4Step (.inSlot .AskWhat .Listen) c7Context .listenComplete
      = some (.inSlot .AskWhat .ValidInput, c7Context)
    ∧ dm4Step (.inSlot .AskWhat .ValidInput) c7Context .speakComplete
      = some (.inSlot .AskWhat .ValidInput, c7Context) :=
  ⟨rfl, (c7_intent_routing_amended c7Context rfl).2.1 (by decide),
    (c7_intent_routing_amended c7Context rfl).2.2 (by decide) (by decide) (by decide)⟩

/-- Claim C8: in the NLU variant, a `personName` entity's text is stored
into the person slot by the AskWhat `RECOGNISED` handler, and when the
utterance's intent is "CreateMeeting" and the person slot ends up
non-empty, the turn (recognition, `LISTEN_COMPLETE`, `SPEAK_COMPLETE`)
lands directly in AskName's `ValidateInput` resolution — `CheckForName`
skips the prompt and listen states, and whenever that validation resolves
it rests in `ValidInput` or `InvalidInput`, never in a prompt or listen
state. -/
theorem c8_nlu_prefill_skips_prompt :
    (∀ (ctx : DM4Context) (e : Entity), e.category = "personName" →
       (applyEntity ctx e).nameResult = e.text)
    ∧ (∀ (ctx : DM4Context) (v : NLUValue), v.topIntent = "CreateMeeting" →
       (applyNLU ctx v).nameResult ≠ "" →
       runDM4 (.inSlot .AskWhat .Listen) ctx [.recognisedNLU v, .listenComplete, .speakComplete]
         = validateName4 (applyNLU ctx v)
       ∧ ∀ p, validateName4 (applyNLU ctx v) = some p →
           p.1 = .inSlot .AskName .ValidInput ∨ p.1 = .inSlot .AskName .InvalidInput) := by
  constructor
  · intro ctx e he
    unfold applyEntity
    rw [he, if_pos rfl]
  · intro ctx v hint hname
    have e1 : dm4Step (.inSlot .AskWhat .Listen) ctx (.recognisedNLU v)
        = some (.inSlot .AskWhat .Listen, applyNLU ctx v) := rfl
    have e2 : dm4Step (.inSlot .AskWhat .Listen) (applyNLU ctx v) .listenComplete
        = some (.inSlot .AskWhat .ValidInput, applyNLU ctx v) := by
      have hv : validateWhat4 (applyNLU ctx v)
          = some (.inSlot .AskWhat .ValidInput, applyNLU ctx v) := by
        unfold validateWhat4
        rw [show (applyNLU ctx v).nluIntent = v.topIntent from rfl, hint]
        rfl
      calc dm4Step (.inSlot .AskWhat .Listen) (applyNLU ctx v) .listenComplete
          = validateWhat4 (applyNLU ctx v) := rfl
        _ = some (.inSlot .AskWhat .ValidInput, applyNLU ctx v) := hv
    have e3 : dm4Step (.inSlot .AskWhat .ValidInput) (applyNLU ctx v) .speakComplete
        = validateName4 (applyNLU ctx v) := by
      have hi : (applyNLU ctx v).nluIntent = "CreateMeeting" := by
        rw [show (applyNLU ctx v).nluIntent = v.topIntent from rfl, hint]
      calc dm4Step (.inSlot .AskWhat .ValidInput) (applyNLU ctx v) .speakComplete
          = if (applyNLU ctx v).nluIntent = "CreateMeeting" then enterAskName4 (applyNLU ctx v)
            else if (applyNLU ctx v).nluIntent = "WhoIs" then some (.WhoIs, applyNLU ctx v)
            else some (.inSlot .AskWhat .ValidInput, applyNLU ctx v) := rfl
        _ = enterAskName4 (applyNLU ctx v) := by rw [if_pos hi]
        _ = validateName4 (applyNLU ctx v) := by
              unfold enterAskName4
              rw [if_pos hname]
    constructor
    · rw [runDM4_cons _ _ _ _ _ _ e1, runDM4_cons _ _ _ _ _ _ e2, runDM4_singleton, e3]
    · intro p hp
      exact validateName4_reaches_validation _ p hp

/-- The NLU payload of the C8 witness: intent "CreateMeeting" with the
single person-name entity "vlad". -/
def c8NLU : NLUValue := { topIntent := "CreateMeeting", entities := some [⟨"personName", "vlad"⟩] }

/-- Witness for C8 at the concrete payload `c8NLU` from the initial dm4
context: the entity text "vlad" is stored, the prompt and listen states are
skipped, and validation resolves the pre-filled name to "Vladislav Maraev"
in `ValidInput`. -/
theorem c8_nlu_prefill_skips_prompt_witness :
    (applyEntity dm4InitContext ⟨"personName", "vlad"⟩).nameResult = "vlad"
    ∧ (applyNLU dm4InitContext c8NLU).nameResult = "vlad"
    ∧ runDM4 (.inSlot .AskWhat .Listen) dm4InitContext
        [.recognisedNLU c8NLU, .listenComplete, .speakComplete]
      = validateName4 (applyNLU dm4InitContext c8NLU)
    ∧ validateName4 (applyNLU dm4InitContext c8NLU)
      = some (.inSlot .AskName .ValidInput,
          { lastResult := some (.nlu c8NLU), nameResult := "Vladislav Maraev",
            dayResult := "", timeResult := "", nluIntent := "CreateMeeting",
            nluEntities := some [⟨"personName", "vlad"⟩] }) :=
  ⟨c8_nlu_prefill_skips_prompt.1 dm4InitContext ⟨"personName", "vlad"⟩ rfl, by decide,
    (c8_nlu_prefill_skips_prompt.2 dm4InitContext c8NLU rfl (by decide)).1, by decide⟩

/-- Claim C10: in dm4.ts, the `LISTEN_COMPLETE` guard of the four slot
sub-machines AskName, AskDay, AskFullDay and AskTime evaluates
`!!slotValue || !!context.lastResult![0].utterance`; when the slot's own
value is still unset (`""`) and recognition ended with no input
(`lastResult` null), the non-null assertion dereferences null, so guard
evaluation throws (`none`) instead of selecting the `NoInput` branch — the
no-input re-prompt is unreachable by safe guard evaluation in those
configurations. -/
theorem c10_listen_guard_null_deref (ctx : DM4Context) :
    (ctx.nameResult = "" → ctx.lastResult = none →
       dm4Step (.inSlot .AskName .Listen) ctx .listenComplete = none)
    ∧ (ctx.dayResult = "" → ctx.lastResult = none →
       dm4Step (.inSlot .AskDay .Listen) ctx .listenComplete = none)
    ∧ (ctx.timeResult = "" → ctx.lastResult = none →
       dm4Step (.inSlot .AskFullDay .Listen) ctx .listenComplete = none)
    ∧ (ctx.timeResult = "" → ctx.lastResult = none →
       dm4Step (.inSlot .AskTime .Listen) ctx .listenComplete = none) := by
  obtain ⟨lr, nr, dr, tr, ni, ne⟩ := ctx
  refine ⟨?_, ?_, ?_, ?_⟩
  · intro hs hlr
    change nr = "" at hs
    change lr = none at hlr
    subst hs
    subst hlr
    rfl
  · intro hs hlr
    change dr = "" at hs
    change lr = none at hlr
    subst hs
    subst hlr
    rfl
  · intro hs hlr
    change tr = "" at hs
    change lr = none at hlr
    subst hs
    subst hlr
    rfl
  · intro hs hlr
    change tr = "" at hs
    change lr = none at hlr
    subst hs
    subst hlr
    rfl

/-- Witness for C10 at the initial dm4 context (fresh slots, no
recognition): the AskName guard evaluation throws. -/
theorem c10_listen_guard_null_deref_witness :
    dm4InitContext.nameResult = "" ∧ dm4InitContext.lastResult = none
    ∧ dm4Step (.inSlot .AskName .Listen) dm4InitContext .listenComplete = none :=
  ⟨rfl, rfl, (c10_listen_guard_null_deref dm4InitContext).1 rfl rfl⟩

end DialogueSystems
